import Mathlib

/-!
Verification of the image-to-document OCR pipeline.

A shallow embedding of the core logic of the repository:

* `src/lib/ocrService.ts` — the OCR adapter (`initializeOCR`,
  `extractTextFromImage`) with its module-level `ocrPipeline` variable;
* `src/components/ImageUpload.tsx` — image intake (`onDrop`) producing
  queue records with ids `` `${Date.now()}-${index}` ``;
* `DocumentConverter` — the processing orchestrator (`processImages`);
* `DocumentPreview` — the document assembler (`completedFiles`,
  `getSectionContent`, `handleSectionEdit`, section construction shared by
  `exportToPDF` / `exportToText`);
* `pdfGenerator` — the two export renderers' output file names
  (`generatePDF`, `generateTextFile`).

JavaScript specifics carried over explicitly: `||` on strings is modelled by
`jsOrString` (the empty string is falsy, like `undefined`), object fields that
may be `undefined` become `Option`, thrown exceptions become `Except`, and the
event-loop interleaving of `async` functions is modelled by a small-step
relation whose atomic segments are the code between `await` points.
-/

set_option autoImplicit false

namespace ImageDocs

/-! ## Data model (`UploadedFile` from ImageUpload.tsx) -/

/-- Per-file status: `'pending' | 'processing' | 'completed' | 'error'`. -/
inductive FileStatus where
  | pending
  | processing
  | completed
  | error
  deriving DecidableEq, Repr

/-- A JavaScript `File` object as the intake sees it: declared name,
declared media type (`file.type`) and byte size (`file.size`). -/
structure JSFile where
  name : String
  mimeType : String
  size : Nat
  deriving DecidableEq, Repr

/-- The queue record `UploadedFile` of ImageUpload.tsx:
`{ id, file, preview, status, extractedText? }`.
`extractedText` is optional (absent until OCR completes). -/
structure UploadedFile where
  id : String
  file : JSFile
  preview : String
  status : FileStatus
  extractedText : Option String
  deriving DecidableEq, Repr

/-- JavaScript `a || b` where `a` is a possibly-`undefined` string:
`undefined` and `""` are falsy, so they fall through to `b`. -/
def jsOrString (a : Option String) (b : String) : String :=
  match a with
  | some s => if s = "" then b else s
  | none => b

/-! ## OCR adapter (ocrService.ts): module state and lazy initialization

The module keeps `let ocrPipeline: any = null`.  We model a constructed
pipeline by the (positive) ordinal of its creation, and count how many times
`pipeline(...)` has been invoked. -/

/-- The ocrService module state: the `ocrPipeline` variable (`none` = `null`)
and the number of times the `pipeline(...)` factory has been invoked. -/
structure OCRModuleState where
  ocrPipeline : Option Nat
  creations : Nat
  deriving DecidableEq, Repr

/-- The fresh module state: `ocrPipeline = null`, no pipeline ever created. -/
def initialOCRState : OCRModuleState :=
  { ocrPipeline := none, creations := 0 }

/-- Sequential (run-to-completion, no interleaving) semantics of
`initializeOCR`: `if (!ocrPipeline) { ocrPipeline = await pipeline(...) }`. -/
def initializeOCR (s : OCRModuleState) : OCRModuleState :=
  if s.ocrPipeline.isSome then s
  else { ocrPipeline := some (s.creations + 1), creations := s.creations + 1 }

/-- The initialization prelude of `extractTextFromImage`, run sequentially:
`if (!ocrPipeline) { await initializeOCR() }`. -/
def extractInit (s : OCRModuleState) : OCRModuleState :=
  if s.ocrPipeline.isSome then s else initializeOCR s

/-- A call into the module: either `initializeOCR()` or
`extractTextFromImage(...)` (of which only the initialization prelude
touches `ocrPipeline`). -/
inductive OCRCall where
  | init
  | extract
  deriving DecidableEq, Repr

/-- One sequential (run-to-completion) call. -/
def ocrCallStep (s : OCRModuleState) (c : OCRCall) : OCRModuleState :=
  match c with
  | OCRCall.init => initializeOCR s
  | OCRCall.extract => extractInit s

/-- A sequence of non-overlapping calls into the module. -/
def runOCRCalls (calls : List OCRCall) (s : OCRModuleState) : OCRModuleState :=
  calls.foldl ocrCallStep s

/-! ### Interleaved (overlapping) initialization

`initializeOCR` is `async`; its body has exactly one `await`
(`ocrPipeline = await pipeline(...)`), splitting it into two atomic
segments: (1) read `ocrPipeline`; if null, invoke `pipeline(...)` and
suspend; (2) on resolution, assign the new pipeline to `ocrPipeline`.
Overlapping callers interleave at that suspension point. -/

/-- Program counter of one in-flight `initializeOCR` call. -/
inductive InitPC where
  /-- About to execute the `!ocrPipeline` test. -/
  | entry
  /-- Suspended inside `await pipeline(...)`; on resumption it will assign
  the pipeline it created (identified by `ticket`). -/
  | pendingAssign (ticket : Nat)
  /-- Returned. -/
  | finished
  deriving DecidableEq, Repr

/-- Module state plus the program counters of the concurrent callers. -/
structure RaceState where
  ocrPipeline : Option Nat
  creations : Nat
  callers : List InitPC
  deriving DecidableEq, Repr

/-- Advance caller `i` by one atomic segment. -/
def raceStep (s : RaceState) (i : Nat) : RaceState :=
  match s.callers.get? i with
  | none => s
  | some InitPC.entry =>
      if s.ocrPipeline.isSome then
        { s with callers := s.callers.set i InitPC.finished }
      else
        { s with
          creations := s.creations + 1,
          callers := s.callers.set i (InitPC.pendingAssign (s.creations + 1)) }
  | some (InitPC.pendingAssign t) =>
      { s with
        ocrPipeline := some t,
        callers := s.callers.set i InitPC.finished }
  | some InitPC.finished => s

/-- Run a schedule (a list of caller indices, each entry advancing that
caller by one atomic segment). -/
def runRace (sched : List Nat) (s : RaceState) : RaceState :=
  sched.foldl raceStep s

/-- Two overlapping `initializeOCR` calls, neither yet started. -/
def twoCallersStart : RaceState :=
  { ocrPipeline := none, creations := 0, callers := [InitPC.entry, InitPC.entry] }

/-! ### `extractTextFromImage` result (ocrService.ts lines 57–62)

Everything that can go wrong inside the `try` block (canvas context, resize,
encode, inference) is one opaque outcome; on success the engine yields
`result.generated_text`, which may be absent. -/

/-- Outcome of the attempt up to and including `ocrPipeline(imageData)`. -/
inductive EngineOutcome where
  /-- Inference returned; `generated` is `result.generated_text`
  (`none` = the engine produced no text field). -/
  | success (generated : Option String)
  /-- Some step in the `try` block threw. -/
  | failure
  deriving DecidableEq, Repr

/-- The `OCRResult` interface `{ text: string; confidence: number }`.
The confidence number is modelled as a rational. -/
structure OCRResult where
  text : String
  confidence : ℚ
  deriving DecidableEq, Repr

/-- The function `extractTextFromImage` viewed over the engine outcome:
on success it returns `{ text: result.generated_text || '', confidence: 0.8 }`;
any failure is rethrown as the single opaque error
`'Failed to extract text from image'`. -/
def extractTextFromImage (outcome : EngineOutcome) : Except String OCRResult :=
  match outcome with
  | EngineOutcome.success generated =>
      Except.ok { text := jsOrString generated "", confidence := 8/10 }
  | EngineOutcome.failure =>
      Except.error "Failed to extract text from image"

/-! ## Image intake (ImageUpload.tsx, `onDrop`) -/

/-- JavaScript `s.startsWith(pre)`, as a character-list prefix test. -/
def strStartsWith (s pre : String) : Bool :=
  pre.data.isPrefixOf s.data

/-- The validation filter of `onDrop`: reject when the declared media type is
not `image/...`, then reject when `file.size > 10 * 1024 * 1024`. -/
def validateFile (f : JSFile) : Bool :=
  if strStartsWith f.mimeType "image/" = false then false
  else if 10 * 1024 * 1024 < f.size then false
  else true

/-- The `toast.error` message the validation filter emits for one candidate,
`none` when the candidate passes both checks. -/
def rejectDiagnostic (f : JSFile) : Option String :=
  if strStartsWith f.mimeType "image/" = false then
    some (f.name ++ " is not a valid image file")
  else if 10 * 1024 * 1024 < f.size then
    some (f.name ++ " is too large (max 10MB)")
  else none

/-- The `toast.error` diagnostics produced by the validation filter, one per
rejected file, in input order. -/
def intakeDiagnostics (acceptedFiles : List JSFile) : List String :=
  acceptedFiles.filterMap rejectDiagnostic

/-- The id template `` `${Date.now()}-${index}` `` (JavaScript renders both
numbers in decimal). -/
def encodeId (now index : Nat) : String :=
  Nat.repr now ++ "-" ++ Nat.repr index

/-- The record built in `reader.onload`: `{ id, file, preview, status:
'pending' }` (no `extractedText`).  `now` is the value of `Date.now()` when
the load callback fires and `readerResult` the data URL from the reader. -/
def mkUploadedFile (now index : Nat) (file : JSFile) (readerResult : String) :
    UploadedFile :=
  { id := encodeId now index
    file := file
    preview := readerResult
    status := FileStatus.pending
    extractedText := none }

/-- The `validFiles.forEach((file, index) => ...)` loop: one queue record per
valid file, carrying the running index.  `now i` is `Date.now()` as observed
by the `i`-th load callback and `readerResult` the preview each reader
produces. -/
def mkRecords (now : Nat → Nat) (readerResult : JSFile → String) :
    Nat → List JSFile → List UploadedFile
  | _, [] => []
  | index, f :: rest =>
      mkUploadedFile (now index) index f (readerResult f) ::
        mkRecords now readerResult (index + 1) rest

/-- The whole `onDrop` callback: filter the candidates, emit one diagnostic
per rejected file, and build one `pending` queue record per valid file
(handed to `onFilesAdded` once all readers finish). -/
def onDrop (now : Nat → Nat) (readerResult : JSFile → String)
    (acceptedFiles : List JSFile) : List UploadedFile × List String :=
  (mkRecords now readerResult 0 (acceptedFiles.filter validateFile),
    intakeDiagnostics acceptedFiles)

/-- `DocumentConverter.handleFilesAdded`: append the new batch to the shared
file collection (`setFiles(prev => [...prev, ...newFiles])`). -/
def handleFilesAdded (prev newFiles : List UploadedFile) : List UploadedFile :=
  prev ++ newFiles

/-! ## Processing orchestrator (`DocumentConverter.processImages`) -/

/-- The `DocumentConverter` component state that `processImages` reads and
writes: the file collection and the `ocrInitialized` flag. -/
structure ConverterState where
  files : List UploadedFile
  ocrInitialized : Bool
  deriving DecidableEq, Repr

/-- One `setFiles(prev => prev.map(f => f.id === file.id ? { ...f, status } :
f))` update. -/
def markStatus (fs : List UploadedFile) (fid : String) (st : FileStatus) :
    List UploadedFile :=
  fs.map fun f => if f.id = fid then { f with status := st } else f

/-- The success update: `{ ...f, status: 'completed', extractedText:
result.text }` for the matching id. -/
def markCompleted (fs : List UploadedFile) (fid : String) (text : String) :
    List UploadedFile :=
  fs.map fun f =>
    if f.id = fid then
      { f with status := FileStatus.completed, extractedText := some text }
    else f

/-- The final record a targeted file ends the run with, as a function of its
own oracle answer: `completed` with the text stored on success, `error` (all
other fields untouched) on failure. -/
def outcomeFile (oracle : String → Except Unit String) (f : UploadedFile) :
    UploadedFile :=
  match oracle f.id with
  | Except.ok t => { f with status := FileStatus.completed, extractedText := some t }
  | Except.error _ => { f with status := FileStatus.error }

/-- The per-file loop of `processImages` over the `pendingFiles` snapshot.
`oracle fid` is the combined outcome of `loadImage` + `extractTextFromImage`
for that file.  Returns the updated collection, the list of recognition
attempts (file ids, in order), and the `toast.error` messages of the files
that failed. -/
def processLoop (oracle : String → Except Unit String) :
    List UploadedFile → List UploadedFile →
      List UploadedFile × List String × List String
  | [], fs => (fs, [], [])
  | p :: rest, fs =>
      let fs1 := markStatus fs p.id FileStatus.processing
      match oracle p.id with
      | Except.ok t =>
          let r := processLoop oracle rest (markCompleted fs1 p.id t)
          (r.1, p.id :: r.2.1, r.2.2)
      | Except.error _ =>
          let r := processLoop oracle rest (markStatus fs1 p.id FileStatus.error)
          (r.1, p.id :: r.2.1, ("Failed to process " ++ p.file.name) :: r.2.2)

/-- Observable result of one `processImages` run. -/
structure RunResult where
  files : List UploadedFile
  ocrInitialized : Bool
  ocrCalls : List String
  errorToasts : List String
  runFailureToasts : Nat
  deriving DecidableEq, Repr

/-- `processImages`:
no-op on an empty collection; initialize the engine if `!ocrInitialized`
(`initOk = false` means `initializeOCR()` threw, landing in the outer
`catch`, which reports `'Failed to process images'` once and leaves the
collection untouched); snapshot the `pending` files; if none remain, return;
otherwise run the per-file loop. -/
def processImages (initOk : Bool) (oracle : String → Except Unit String)
    (s : ConverterState) : RunResult :=
  if s.files.isEmpty then
    { files := s.files, ocrInitialized := s.ocrInitialized,
      ocrCalls := [], errorToasts := [], runFailureToasts := 0 }
  else if s.ocrInitialized = false ∧ initOk = false then
    { files := s.files, ocrInitialized := s.ocrInitialized,
      ocrCalls := [], errorToasts := [], runFailureToasts := 1 }
  else
    let pendingFiles := s.files.filter fun f => f.status == FileStatus.pending
    if pendingFiles.isEmpty then
      { files := s.files, ocrInitialized := true,
        ocrCalls := [], errorToasts := [], runFailureToasts := 0 }
    else
      let r := processLoop oracle pendingFiles s.files
      { files := r.1, ocrInitialized := true,
        ocrCalls := r.2.1, errorToasts := r.2.2, runFailureToasts := 0 }

/-! ## Document assembler (`DocumentPreview`) -/

/-- A `DocumentSection` of pdfGenerator:
`{ title?, content, imageUrl? }`. -/
structure DocumentSection where
  title : Option String
  content : String
  imageUrl : Option String
  deriving DecidableEq, Repr

/-- `DocumentOptions` of pdfGenerator:
`{ title?, author?, subject?, sections }`. -/
structure DocumentOptions where
  title : Option String
  author : Option String
  subject : Option String
  sections : List DocumentSection
  deriving DecidableEq, Repr

/-- `files.filter(file => file.status === 'completed' && file.extractedText)`:
note the truthiness test on `extractedText` — an absent or empty text
excludes the file. -/
def completedFiles (files : List UploadedFile) : List UploadedFile :=
  files.filter fun f =>
    f.status == FileStatus.completed &&
      (match f.extractedText with
        | some s => !(s == "")
        | none => false)

/-- `handleSectionEdit`: `setEditedSections(prev => ({ ...prev, [fileId]:
newText }))`.  The overlay is modelled as a lookup function. -/
def handleSectionEdit (editedSections : String → Option String)
    (fileId newText : String) : String → Option String :=
  fun k => if k = fileId then some newText else editedSections k

/-- `getSectionContent`: `editedSections[file.id] || file.extractedText || ''`. -/
def getSectionContent (editedSections : String → Option String)
    (f : UploadedFile) : String :=
  jsOrString (editedSections f.id) (jsOrString f.extractedText "")

/-- The `completedFiles.map((file, index) => ({ title: ..., content: ... }))`
body shared by `exportToPDF` and `exportToText`, with the running index. -/
def mkSections (editedSections : String → Option String) :
    Nat → List UploadedFile → List DocumentSection
  | _, [] => []
  | index, f :: rest =>
      { title := some ("Section " ++ Nat.repr (index + 1) ++ " - " ++ f.file.name)
        content := getSectionContent editedSections f
        imageUrl := none } :: mkSections editedSections (index + 1) rest

/-- The ordered section list both export buttons assemble from the current
file collection and the edit overlay. -/
def exportSections (editedSections : String → Option String)
    (files : List UploadedFile) : List DocumentSection :=
  mkSections editedSections 0 (completedFiles files)

/-! ## Exporter (pdfGenerator) output file names -/

/-- One character of `title.replace(/[^a-z0-9]/gi, '_')`: a character outside
`a-z`, `A-Z`, `0-9` becomes an underscore. -/
def sanitizeChar (c : Char) : Char :=
  if c.isAlphanum then c else '_'

/-- Per-character lower-casing, as JavaScript `toLowerCase` acts on the
ASCII-only strings left after sanitization. -/
def lowerString (s : String) : String :=
  String.mk (s.data.map Char.toLower)

/-- `title.replace(/[^a-z0-9]/gi, '_').toLowerCase()`. -/
def sanitizeTitle (t : String) : String :=
  lowerString (String.mk (t.data.map sanitizeChar))

/-- The file name `generatePDF` saves to (pdfGenerator lines 97–99):
the sanitized title, or `extracted_document` when the title is falsy. -/
def generatePDFFilename (options : DocumentOptions) : String :=
  match options.title with
  | some t => if t = "" then "extracted_document.pdf" else sanitizeTitle t ++ ".pdf"
  | none => "extracted_document.pdf"

/-- The file name `generateTextFile` downloads (pdfGenerator lines 141–143). -/
def generateTextFileFilename (options : DocumentOptions) : String :=
  match options.title with
  | some t => if t = "" then "extracted_document.txt" else sanitizeTitle t ++ ".txt"
  | none => "extracted_document.txt"

/-! ## Decimal rendering of numbers

The id template interpolates `Date.now()` and the loop index in decimal.
Lean renders numbers with `Nat.repr`, whose fuel-based core implementation
we first align with a structurally recursive twin, in order to prove that
decimal strings are made of digit characters and determine the number. -/

/-- Structurally recursive twin of the base-10 `Nat.toDigitsCore`. -/
def natDigits (n : Nat) : List Char :=
  if _h : n < 10 then [Nat.digitChar n]
  else natDigits (n / 10) ++ [Nat.digitChar (n % 10)]
decreasing_by exact Nat.div_lt_self (by omega) (by omega)

/-- Decode a digit string back to a number. -/
def valOfDigits (l : List Char) : Nat :=
  l.foldl (fun a c => 10 * a + (c.toNat - 48)) 0

/-- Whether the combined `loadImage` + `extractTextFromImage` attempt threw. -/
def recognitionFailed : Except Unit String → Bool
  | Except.ok _ => false
  | Except.error _ => true

/-- Reachable-state invariant of the ocrService module under sequential
calls: either nothing has ever been created and the variable is still null,
or exactly one pipeline has been created and is stored. -/
def OCRInv (s : OCRModuleState) : Prop :=
  (s.ocrPipeline = none ∧ s.creations = 0) ∨
    (s.ocrPipeline.isSome = true ∧ s.creations = 1)

/-! ## Concrete sample data (used by witnesses and counterexamples) -/

/-- A small valid image candidate. -/
def imgA : JSFile := { name := "a.png", mimeType := "image/png", size := 100 }

/-- Another valid image candidate. -/
def imgB : JSFile := { name := "b.png", mimeType := "image/png", size := 200 }

/-- A candidate with a non-image media type (rejected by intake). -/
def docPdf : JSFile := { name := "c.pdf", mimeType := "application/pdf", size := 100 }

/-- A candidate one byte over the 10 MiB ceiling (rejected by intake). -/
def imgBig : JSFile :=
  { name := "d.png", mimeType := "image/png", size := 10 * 1024 * 1024 + 1 }

/-- A pending queue record. -/
def recA : UploadedFile :=
  { id := "10-0", file := imgA, preview := "pa",
    status := FileStatus.pending, extractedText := none }

/-- A second pending queue record. -/
def recB : UploadedFile :=
  { id := "10-1", file := imgB, preview := "pb",
    status := FileStatus.pending, extractedText := none }

/-- A record a previous run completed. -/
def recDone : UploadedFile :=
  { id := "9-0", file := imgB, preview := "pc",
    status := FileStatus.completed, extractedText := some "done" }

/-- A record a previous run marked as failed. -/
def recErr : UploadedFile :=
  { id := "9-1", file := imgA, preview := "pd",
    status := FileStatus.error, extractedText := none }

/-- An oracle that fails recognition on `recA` and succeeds elsewhere. -/
def oracleW : String → Except Unit String :=
  fun fid => if fid = "10-0" then Except.error () else Except.ok "text"

/-- A completed record with stored text `"original"`. -/
def fileOriginal : UploadedFile :=
  { id := "a", file := imgA, preview := "p",
    status := FileStatus.completed, extractedText := some "original" }

/-- A completed record whose recognition produced the empty string. -/
def fileEmptyText : UploadedFile :=
  { id := "e", file := imgA, preview := "p",
    status := FileStatus.completed, extractedText := some "" }

/-- Completed sample with text, for the assembler example. -/
def secFileA : UploadedFile :=
  { id := "A", file := imgA, preview := "p",
    status := FileStatus.completed, extractedText := some "textA" }

/-- Pending sample, for the assembler example. -/
def secFileB : UploadedFile :=
  { id := "B", file := imgB, preview := "p",
    status := FileStatus.pending, extractedText := none }

/-- Second completed sample with text, for the assembler example. -/
def secFileC : UploadedFile :=
  { id := "C", file := { name := "c.png", mimeType := "image/png", size := 3 },
    preview := "p", status := FileStatus.completed, extractedText := some "textC" }

/-- One-file batch, for the id-collision counterexample. -/
def batchFile1 : JSFile := { name := "x.png", mimeType := "image/png", size := 1 }

/-- Second one-file batch, for the id-collision counterexample. -/
def batchFile2 : JSFile := { name := "y.png", mimeType := "image/png", size := 1 }

/-! ## Lemmas: decimal rendering -/

/-- Every digit character below 10 decodes back to its value and is not the
dash used as the id separator. -/
theorem digitChar_spec :
    ∀ d : Nat, d < 10 → (Nat.digitChar d).toNat - 48 = d ∧ Nat.digitChar d ≠ '-' := by
  decide

theorem valOfDigits_append_digit (l : List Char) (c : Char) :
    valOfDigits (l ++ [c]) = 10 * valOfDigits l + (c.toNat - 48) := by
  unfold valOfDigits
  rw [List.foldl_append]
  rfl

theorem natDigits_val (n : Nat) : valOfDigits (natDigits n) = n := by
  induction n using Nat.strong_induction_on with
  | _ n ih =>
    by_cases h : n < 10
    · rw [natDigits, dif_pos h]
      have hv := (digitChar_spec n h).1
      simp [valOfDigits, List.foldl, hv]
    · rw [natDigits, dif_neg h]
      rw [valOfDigits_append_digit]
      rw [ih (n / 10) (Nat.div_lt_self (by omega) (by omega))]
      have hv := (digitChar_spec (n % 10) (Nat.mod_lt _ (by omega))).1
      rw [hv]
      omega

theorem natDigits_no_dash (n : Nat) : ∀ c ∈ natDigits n, c ≠ '-' := by
  induction n using Nat.strong_induction_on with
  | _ n ih =>
    by_cases h : n < 10
    · rw [natDigits, dif_pos h]
      intro c hc
      rw [List.mem_singleton] at hc
      subst hc
      exact (digitChar_spec n h).2
    · rw [natDigits, dif_neg h]
      intro c hc
      rcases List.mem_append.1 hc with h1 | h2
      · exact ih (n / 10) (Nat.div_lt_self (by omega) (by omega)) c h1
      · rw [List.mem_singleton] at h2
        subst h2
        exact (digitChar_spec (n % 10) (Nat.mod_lt _ (by omega))).2

theorem toDigitsCore_eq_natDigits :
    ∀ (fuel n : Nat) (ds : List Char), n < fuel →
      Nat.toDigitsCore 10 fuel n ds = natDigits n ++ ds := by
  intro fuel
  induction fuel with
  | zero => intro n ds h; omega
  | succ f ih =>
    intro n ds h
    by_cases h10 : n / 10 = 0
    · have hlt : n < 10 := by omega
      simp only [Nat.toDigitsCore]
      rw [if_pos h10, natDigits, dif_pos hlt, Nat.mod_eq_of_lt hlt]
      rfl
    · have hstep : n / 10 < f := by omega
      have hge : ¬ n < 10 := by omega
      simp only [Nat.toDigitsCore]
      rw [if_neg h10, ih (n / 10) _ hstep]
      conv_rhs => rw [natDigits]
      rw [dif_neg hge, List.append_assoc]
      rfl

theorem repr_eq_natDigits (n : Nat) : Nat.repr n = (natDigits n).asString := by
  rw [Nat.repr, Nat.toDigits,
    toDigitsCore_eq_natDigits (n + 1) n [] (Nat.lt_succ_self n), List.append_nil]

theorem repr_data (n : Nat) : (Nat.repr n).data = natDigits n := by
  rw [repr_eq_natDigits]
  rfl

theorem repr_injective {a b : Nat} (h : Nat.repr a = Nat.repr b) : a = b := by
  have hd : natDigits a = natDigits b := by
    rw [← repr_data, ← repr_data, h]
  have := congrArg valOfDigits hd
  rwa [natDigits_val, natDigits_val] at this

theorem repr_no_dash (n : Nat) : ∀ c ∈ (Nat.repr n).data, c ≠ '-' := by
  rw [repr_data]
  exact natDigits_no_dash n

/-- Splitting a character list at its first dash is unambiguous when neither
prefix part contains a dash. -/
theorem append_dash_inj :
    ∀ (a c b d : List Char), (∀ x ∈ a, x ≠ '-') → (∀ x ∈ c, x ≠ '-') →
      a ++ '-' :: b = c ++ '-' :: d → a = c ∧ b = d := by
  intro a
  induction a with
  | nil =>
    intro c b d _ hc h
    cases c with
    | nil =>
      simp only [List.nil_append, List.cons.injEq] at h
      exact ⟨rfl, h.2⟩
    | cons y c' =>
      simp only [List.nil_append, List.cons_append, List.cons.injEq] at h
      exact absurd h.1.symm (hc y (List.mem_cons_self y c'))
  | cons x a' ih =>
    intro c b d ha hc h
    cases c with
    | nil =>
      simp only [List.cons_append, List.nil_append, List.cons.injEq] at h
      exact absurd h.1 (ha x (List.mem_cons_self x a'))
    | cons y c' =>
      simp only [List.cons_append, List.cons.injEq] at h
      obtain ⟨hxy, hrest⟩ := h
      obtain ⟨h1, h2⟩ :=
        ih c' b d (fun z hz => ha z (List.mem_cons_of_mem x hz))
          (fun z hz => hc z (List.mem_cons_of_mem y hz)) hrest
      exact ⟨by rw [hxy, h1], h2⟩

theorem string_data_append (s t : String) : (s ++ t).data = s.data ++ t.data := by
  cases s
  cases t
  rfl

/-- Two generated ids are equal exactly when both the observed `Date.now()`
values and the batch indices are equal. -/
theorem encodeId_inj (t i t' i' : Nat) :
    encodeId t i = encodeId t' i' ↔ t = t' ∧ i = i' := by
  constructor
  · intro h
    have hd : (Nat.repr t).data ++ '-' :: (Nat.repr i).data
        = (Nat.repr t').data ++ '-' :: (Nat.repr i').data := by
      have h' := congrArg String.data h
      simpa [encodeId, string_data_append] using h'
    obtain ⟨h1, h2⟩ :=
      append_dash_inj _ _ _ _ (repr_no_dash t) (repr_no_dash t') hd
    have ht : Nat.repr t = Nat.repr t' := by
      cases hr : Nat.repr t
      cases hr' : Nat.repr t'
      rw [hr] at h1
      rw [hr'] at h1
      simp only at h1
      rw [h1]
    have hi : Nat.repr i = Nat.repr i' := by
      cases hr : Nat.repr i
      cases hr' : Nat.repr i'
      rw [hr] at h2
      rw [hr'] at h2
      simp only at h2
      rw [h2]
    exact ⟨repr_injective ht, repr_injective hi⟩
  · rintro ⟨rfl, rfl⟩
    rfl

/-! ## Orchestrator characterization -/

theorem outcomeFile_id (oracle : String → Except Unit String) (f : UploadedFile) :
    (outcomeFile oracle f).id = f.id := by
  unfold outcomeFile
  cases oracle f.id <;> rfl

theorem outcomeFile_idem (oracle : String → Except Unit String) (f : UploadedFile) :
    outcomeFile oracle (outcomeFile oracle f) = outcomeFile oracle f := by
  cases f with
  | mk fid ffile fpreview fstatus ftext =>
    unfold outcomeFile
    cases h : oracle fid <;> simp [h]

theorem processStepOk_eq (oracle : String → Except Unit String) (pid : String)
    (fs : List UploadedFile) (t : String) (h : oracle pid = Except.ok t) :
    markCompleted (markStatus fs pid FileStatus.processing) pid t
      = fs.map (fun g => if g.id = pid then outcomeFile oracle g else g) := by
  unfold markCompleted markStatus
  rw [List.map_map]
  congr 1
  funext g
  cases g with
  | mk gid gfile gpreview gstatus gtext =>
    by_cases hg : gid = pid
    · subst hg
      simp [Function.comp, outcomeFile, h]
    · simp [Function.comp, hg]

theorem processStepErr_eq (oracle : String → Except Unit String) (pid : String)
    (fs : List UploadedFile) (e : Unit) (h : oracle pid = Except.error e) :
    markStatus (markStatus fs pid FileStatus.processing) pid FileStatus.error
      = fs.map (fun g => if g.id = pid then outcomeFile oracle g else g) := by
  unfold markStatus
  rw [List.map_map]
  congr 1
  funext g
  cases g with
  | mk gid gfile gpreview gstatus gtext =>
    by_cases hg : gid = pid
    · subst hg
      simp [Function.comp, outcomeFile, h]
    · simp [Function.comp, hg]

theorem processLoop_pointwise (oracle : String → Except Unit String)
    (pid : String) (restIds : List String) (g : UploadedFile) :
    (fun g => if g.id ∈ restIds then outcomeFile oracle g else g)
        ((fun g => if g.id = pid then outcomeFile oracle g else g) g)
      = if g.id ∈ pid :: restIds then outcomeFile oracle g else g := by
  by_cases hp : g.id = pid
  · simp only [if_pos hp, outcomeFile_id]
    by_cases hr : g.id ∈ restIds
    · simp [hr, hp, outcomeFile_idem]
    · simp [hr, hp, outcomeFile_idem]
  · simp only [if_neg hp]
    by_cases hr : g.id ∈ restIds
    · simp [hr]
    · simp [hr, List.mem_cons, hp]

/-- The per-file loop acts on every record exactly through `outcomeFile`,
keyed by the record's own id — each file's final state depends only on its
own recognition outcome. -/
theorem processLoop_files (oracle : String → Except Unit String)
    (ps fs : List UploadedFile) :
    (processLoop oracle ps fs).1
      = fs.map (fun g =>
          if g.id ∈ ps.map UploadedFile.id then outcomeFile oracle g else g) := by
  induction ps generalizing fs with
  | nil => simp [processLoop]
  | cons p rest ih =>
    cases h : oracle p.id with
    | ok t =>
      simp only [processLoop, h]
      rw [ih, processStepOk_eq oracle p.id fs t h, List.map_map]
      simp only [List.map_cons]
      congr 1
      funext g
      exact processLoop_pointwise oracle p.id (rest.map UploadedFile.id) g
    | error e =>
      simp only [processLoop, h]
      rw [ih, processStepErr_eq oracle p.id fs e h, List.map_map]
      simp only [List.map_cons]
      congr 1
      funext g
      exact processLoop_pointwise oracle p.id (rest.map UploadedFile.id) g

/-- Every targeted file gets exactly one recognition attempt, in queue
order, regardless of earlier failures. -/
theorem processLoop_calls (oracle : String → Except Unit String)
    (ps fs : List UploadedFile) :
    (processLoop oracle ps fs).2.1 = ps.map UploadedFile.id := by
  induction ps generalizing fs with
  | nil => rfl
  | cons p rest ih =>
    cases h : oracle p.id <;> simp [processLoop, h, ih]

/-- One failure toast per targeted file whose recognition attempt threw. -/
theorem processLoop_errs (oracle : String → Except Unit String)
    (ps fs : List UploadedFile) :
    (processLoop oracle ps fs).2.2
      = (ps.filter fun p => recognitionFailed (oracle p.id)).map
          (fun p => "Failed to process " ++ p.file.name) := by
  induction ps generalizing fs with
  | nil => rfl
  | cons p rest ih =>
    cases h : oracle p.id <;> simp [processLoop, h, ih, recognitionFailed]

/-- Characterization of a run that gets past initialization: every `pending`
file ends in the state its own oracle answer dictates, every other file is
untouched. -/
theorem processImages_files (initOk : Bool) (oracle : String → Except Unit String)
    (s : ConverterState)
    (hnodup : (s.files.map UploadedFile.id).Nodup)
    (hinit : ¬(s.ocrInitialized = false ∧ initOk = false)) :
    (processImages initOk oracle s).files
      = s.files.map (fun g =>
          if g.status = FileStatus.pending then outcomeFile oracle g else g) := by
  unfold processImages
  by_cases hemp : s.files.isEmpty
  · rw [if_pos hemp]
    have h0 : s.files = [] := List.isEmpty_iff.mp hemp
    simp [h0]
  · rw [if_neg hemp, if_neg hinit]
    by_cases hpe : (s.files.filter fun f => f.status == FileStatus.pending).isEmpty
    · simp only [if_pos hpe]
      have hnone : ∀ g ∈ s.files, ¬g.status = FileStatus.pending := by
        intro g hg hcontra
        have hmem : g ∈ s.files.filter fun f => f.status == FileStatus.pending :=
          List.mem_filter.mpr ⟨hg, by simp [hcontra]⟩
        rw [List.isEmpty_iff.mp hpe] at hmem
        simp at hmem
      symm
      conv_rhs => rw [← List.map_id s.files]
      apply List.map_congr_left
      intro g hg
      simp [hnone g hg]
    · simp only [if_neg hpe]
      rw [processLoop_files]
      apply List.map_congr_left
      intro g hg
      have hiff : g.id ∈ (s.files.filter fun f =>
          f.status == FileStatus.pending).map UploadedFile.id
            ↔ g.status = FileStatus.pending := by
        constructor
        · intro hmem
          obtain ⟨g', hg', hid⟩ := List.mem_map.1 hmem
          obtain ⟨hg'f, hg's⟩ := List.mem_filter.1 hg'
          have hgg : g' = g := List.inj_on_of_nodup_map hnodup hg'f hg hid
          rw [← hgg]
          exact beq_iff_eq.mp hg's
        · intro hst
          exact List.mem_map.2 ⟨g, List.mem_filter.2 ⟨hg, by simp [hst]⟩, rfl⟩
      by_cases hst : g.status = FileStatus.pending <;> simp [hiff, hst]

/-- Recognition attempts of a full run that gets past initialization with at
least one pending file. -/
theorem processImages_calls (initOk : Bool) (oracle : String → Except Unit String)
    (s : ConverterState)
    (hinit : ¬(s.ocrInitialized = false ∧ initOk = false))
    (hpend : ¬(s.files.filter fun f => f.status == FileStatus.pending).isEmpty) :
    (processImages initOk oracle s).ocrCalls
      = (s.files.filter fun f => f.status == FileStatus.pending).map UploadedFile.id := by
  unfold processImages
  have hemp : ¬s.files.isEmpty := by
    intro hc
    apply hpend
    rw [List.isEmpty_iff.mp hc]
    rfl
  rw [if_neg hemp, if_neg hinit]
  simp only [if_neg hpend]
  rw [processLoop_calls]

/-- Failure toasts of a full run that gets past initialization with at least
one pending file. -/
theorem processImages_errs (initOk : Bool) (oracle : String → Except Unit String)
    (s : ConverterState)
    (hinit : ¬(s.ocrInitialized = false ∧ initOk = false))
    (hpend : ¬(s.files.filter fun f => f.status == FileStatus.pending).isEmpty) :
    (processImages initOk oracle s).errorToasts
      = ((s.files.filter fun f => f.status == FileStatus.pending).filter
            fun p => recognitionFailed (oracle p.id)).map
          (fun p => "Failed to process " ++ p.file.name) := by
  unfold processImages
  have hemp : ¬s.files.isEmpty := by
    intro hc
    apply hpend
    rw [List.isEmpty_iff.mp hc]
    rfl
  rw [if_neg hemp, if_neg hinit]
  simp only [if_neg hpend]
  rw [processLoop_errs]

/-! ## Intake characterization -/

theorem mkRecords_length (now : Nat → Nat) (rr : JSFile → String) :
    ∀ (start : Nat) (l : List JSFile), (mkRecords now rr start l).length = l.length := by
  intro start l
  induction l generalizing start with
  | nil => rfl
  | cons f rest ih => simp [mkRecords, ih]

theorem mkRecords_mem (now : Nat → Nat) (rr : JSFile → String) :
    ∀ (start : Nat) (l : List JSFile) (r : UploadedFile),
      r ∈ mkRecords now rr start l →
        ∃ i f, f ∈ l ∧ r = mkUploadedFile (now i) i f (rr f) := by
  intro start l
  induction l generalizing start with
  | nil =>
    intro r hr
    simp [mkRecords] at hr
  | cons f rest ih =>
    intro r hr
    simp only [mkRecords] at hr
    rcases List.mem_cons.1 hr with h | h
    · exact ⟨start, f, List.mem_cons_self f rest, h⟩
    · obtain ⟨i, f', hf', hr'⟩ := ih (start + 1) r h
      exact ⟨i, f', List.mem_cons_of_mem f hf', hr'⟩

theorem mkRecords_get? (now : Nat → Nat) (rr : JSFile → String) :
    ∀ (l : List JSFile) (start k : Nat),
      (mkRecords now rr start l).get? k
        = (l.get? k).map fun f =>
            mkUploadedFile (now (start + k)) (start + k) f (rr f) := by
  intro l
  induction l with
  | nil =>
    intro start k
    simp [mkRecords]
  | cons f rest ih =>
    intro start k
    cases k with
    | zero => simp [mkRecords]
    | succ k' =>
      simp only [mkRecords, List.get?_cons_succ]
      rw [ih (start + 1) k']
      have harith : start + 1 + k' = start + (k' + 1) := by omega
      rw [harith]

theorem rejectDiagnostic_none (f : JSFile) (h : validateFile f = true) :
    rejectDiagnostic f = none := by
  unfold validateFile at h
  unfold rejectDiagnostic
  by_cases h1 : strStartsWith f.mimeType "image/" = false
  · rw [if_pos h1] at h
    exact absurd h (by simp)
  · rw [if_neg h1] at h ⊢
    by_cases h2 : 10 * 1024 * 1024 < f.size
    · rw [if_pos h2] at h
      exact absurd h (by simp)
    · rw [if_neg h2]

theorem rejectDiagnostic_some (f : JSFile) (h : validateFile f = false) :
    ∃ m, rejectDiagnostic f = some m := by
  unfold validateFile at h
  unfold rejectDiagnostic
  by_cases h1 : strStartsWith f.mimeType "image/" = false
  · rw [if_pos h1]
    exact ⟨_, rfl⟩
  · rw [if_neg h1] at h ⊢
    by_cases h2 : 10 * 1024 * 1024 < f.size
    · rw [if_pos h2]
      exact ⟨_, rfl⟩
    · rw [if_neg h2] at h
      exact absurd h (by simp)

theorem intakeDiagnostics_length (l : List JSFile) :
    (intakeDiagnostics l).length = (l.filter fun f => !validateFile f).length := by
  induction l with
  | nil => rfl
  | cons f rest ih =>
    simp only [intakeDiagnostics, List.filterMap_cons, List.filter_cons]
    cases hv : validateFile f
    · obtain ⟨m, hm⟩ := rejectDiagnostic_some f hv
      rw [hm]
      simpa [hv] using congrArg Nat.succ ih
    · rw [rejectDiagnostic_none f hv]
      simpa [hv] using ih

theorem filter_length_split {α : Type _} (p : α → Bool) (l : List α) :
    (l.filter p).length + (l.filter fun a => !p a).length = l.length := by
  induction l with
  | nil => rfl
  | cons a rest ih =>
    cases h : p a <;> simp only [List.filter_cons, h] <;> simp <;> omega

/-! ## Once-only initialization: the sequential invariant -/

theorem initializeOCR_inv (s : OCRModuleState) (hs : OCRInv s) :
    OCRInv (initializeOCR s) := by
  rcases hs with ⟨h1, h2⟩ | ⟨h1, h2⟩
  · unfold initializeOCR
    rw [h1]
    simp [OCRInv, h2]
  · unfold initializeOCR
    rw [if_pos h1]
    exact Or.inr ⟨h1, h2⟩

theorem extractInit_inv (s : OCRModuleState) (hs : OCRInv s) :
    OCRInv (extractInit s) := by
  unfold extractInit
  by_cases h : s.ocrPipeline.isSome
  · rw [if_pos h]
    exact hs
  · rw [if_neg h]
    exact initializeOCR_inv s hs

theorem runOCRCalls_inv (calls : List OCRCall) (s : OCRModuleState)
    (hs : OCRInv s) : OCRInv (runOCRCalls calls s) := by
  induction calls generalizing s with
  | nil => exact hs
  | cons c rest ih =>
    have hstep : OCRInv (ocrCallStep s c) := by
      cases c with
      | init => exact initializeOCR_inv s hs
      | extract => exact extractInit_inv s hs
    exact ih (ocrCallStep s c) hstep

/-! ## Assembler characterization -/

theorem mkSections_length (edited : String → Option String) :
    ∀ (start : Nat) (l : List UploadedFile),
      (mkSections edited start l).length = l.length := by
  intro start l
  induction l generalizing start with
  | nil => rfl
  | cons f rest ih => simp [mkSections, ih]

/-- A run that gets past initialization never lands in the outer `catch`. -/
theorem processImages_runFailureToasts_zero (initOk : Bool)
    (oracle : String → Except Unit String) (s : ConverterState)
    (hinit : ¬(s.ocrInitialized = false ∧ initOk = false)) :
    (processImages initOk oracle s).runFailureToasts = 0 := by
  unfold processImages
  by_cases hemp : s.files.isEmpty
  · rw [if_pos hemp]
  · rw [if_neg hemp, if_neg hinit]
    by_cases hpe : (s.files.filter fun f => f.status == FileStatus.pending).isEmpty
    · simp only [if_pos hpe]
    · simp only [if_neg hpe]

/-! ## Claims

One theorem per claim of the specification audit; each claim with
hypotheses additionally gets a closed witness applying it to concrete
data, and each refuted claim gets a closed counterexample. -/

/-- C1 counterexample: two overlapping `initializeOCR` calls, interleaved at
the `await` point (schedule: caller 0 checks null and starts creating,
caller 1 checks the still-null variable and starts creating too, then both
assign), invoke the `pipeline(...)` factory twice — the claim's "created
exactly once ... overlapping callers collapsing onto a single shared
initialization future" is false: the module caches the constructed
pipeline, not the in-flight promise. -/
theorem initialization_race_creates_twice :
    (runRace [0, 1, 0, 1] twoCallersStart).creations = 2 ∧
      ¬(runRace [0, 1, 0, 1] twoCallersStart).creations = 1 := by
  constructor <;> decide

/-- C1 (amended): for sequential (non-overlapping) sequences of calls to
`initializeOCR` and `extractTextFromImage`, starting from the fresh module
state, the recognition pipeline is created at most once — repeated calls
after initialization never create a second pipeline.  (Overlapping callers
are NOT collapsed onto a shared future; see the counterexample.) -/
theorem initialization_at_most_once_sequential (calls : List OCRCall) :
    (runOCRCalls calls initialOCRState).creations ≤ 1 := by
  have h := runOCRCalls_inv calls initialOCRState (Or.inl ⟨rfl, rfl⟩)
  rcases h with ⟨_, h2⟩ | ⟨_, h2⟩ <;> omega

/-- C4 counterexample: a file in `completed` status whose stored extracted
text is the empty string receives NO section (the `&& file.extractedText`
truthiness test excludes it), refuting "exactly one section per file whose
status is completed". -/
theorem completed_empty_text_excluded :
    fileEmptyText.status = FileStatus.completed ∧
    exportSections (fun _ => none) [fileEmptyText] = [] :=
  ⟨rfl, rfl⟩

/-- C4 (amended): the assembled document contains exactly one section per
file whose status is `completed` AND whose stored extracted text is
non-empty, in the files' queue order, and no section for any other file;
e.g. for `[A: completed "textA", B: pending, C: completed "textC"]` the
document contains exactly the sections for A and C, in that order. -/
theorem export_sections_exactly_completed (edited : String → Option String)
    (files : List UploadedFile) :
    exportSections edited files
      = mkSections edited 0 (files.filter fun f =>
          decide (f.status = FileStatus.completed) && !(f.extractedText.getD "" == "")) ∧
    (exportSections edited files).length
      = (files.filter fun f =>
          decide (f.status = FileStatus.completed) && !(f.extractedText.getD "" == "")).length ∧
    exportSections (fun _ => none) [secFileA, secFileB, secFileC]
      = [{ title := some "Section 1 - a.png", content := "textA", imageUrl := none },
         { title := some "Section 2 - c.png", content := "textC", imageUrl := none }] := by
  have h1 : exportSections edited files
      = mkSections edited 0 (files.filter fun f =>
          decide (f.status = FileStatus.completed) && !(f.extractedText.getD "" == "")) := by
    unfold exportSections completedFiles
    congr 1
    apply List.filter_congr
    intro f _
    cases h : f.extractedText
    · simp [h]
    · simp only [h, Option.getD_some]
      rfl
  refine ⟨h1, ?_, by decide⟩
  rw [h1, mkSections_length]

/-- C5 counterexample: with the overlay entry for `fileOriginal.id` present
but equal to the empty string, the section body is the STORED text (the `||`
chain treats `""` as absent), not the overlay value — refuting "equals the
edit-overlay value ... when an overlay entry for that id is present". -/
theorem overlay_empty_entry_ignored :
    handleSectionEdit (fun _ => none) "a" "" fileOriginal.id = some "" ∧
    getSectionContent (handleSectionEdit (fun _ => none) "a" "") fileOriginal
      = "original" := by
  constructor <;> rfl

/-- C5 (amended): the body of a completed file's section equals the overlay
value for its id when that entry is present AND non-empty; otherwise (entry
absent or empty) it equals `jsOrString extractedText ""`, i.e. the stored
extracted text when that is present and non-empty, else the empty string. -/
theorem section_content_resolution (edited : String → Option String)
    (f : UploadedFile) :
    (∀ v, edited f.id = some v → v ≠ "" → getSectionContent edited f = v) ∧
    (edited f.id = none →
      getSectionContent edited f = jsOrString f.extractedText "") ∧
    (edited f.id = some "" →
      getSectionContent edited f = jsOrString f.extractedText "") ∧
    (∀ t, f.extractedText = some t → t ≠ "" → jsOrString f.extractedText "" = t) ∧
    (f.extractedText = none → jsOrString f.extractedText "" = "") := by
  refine ⟨?_, ?_, ?_, ?_, ?_⟩
  · intro v hv hne
    unfold getSectionContent
    rw [hv]
    simp [jsOrString, hne]
  · intro hv
    unfold getSectionContent
    rw [hv]
    rfl
  · intro hv
    unfold getSectionContent
    rw [hv]
    simp [jsOrString]
  · intro t ht hne
    rw [ht]
    simp [jsOrString, hne]
  · intro ht
    rw [ht]
    rfl

/-- C5 witness: the specification's own example — overlay `{a: "edited
text"}` on a completed file with stored text `"original"` exports body
`"edited text"`. -/
theorem section_content_resolution_witness :
    ((fun _ => some "edited text") fileOriginal.id = some "edited text") ∧
    ("edited text" : String) ≠ "" ∧
    getSectionContent (fun _ => some "edited text") fileOriginal = "edited text" :=
  ⟨rfl, by decide,
    (section_content_resolution (fun _ => some "edited text") fileOriginal).1
      "edited text" rfl (by decide)⟩

/-- C9: both export renderers derive the output base name from the title by
replacing every non-alphanumeric character with an underscore and
lower-casing — `"My Report!"` yields `my_report_` before the extension —
and both fall back to the fixed name `extracted_document` when no title is
set; the two renderers always agree on the base name. -/
theorem export_filename_derivation :
    generatePDFFilename
        { title := some "My Report!", author := none, subject := none, sections := [] }
      = "my_report_.pdf" ∧
    generateTextFileFilename
        { title := some "My Report!", author := none, subject := none, sections := [] }
      = "my_report_.txt" ∧
    generatePDFFilename
        { title := none, author := none, subject := none, sections := [] }
      = "extracted_document.pdf" ∧
    generateTextFileFilename
        { title := none, author := none, subject := none, sections := [] }
      = "extracted_document.txt" ∧
    (∀ options : DocumentOptions, ∃ base : String,
      generatePDFFilename options = base ++ ".pdf" ∧
      generateTextFileFilename options = base ++ ".txt") := by
  refine ⟨by decide, by decide, rfl, rfl, ?_⟩
  intro o
  cases ho : o.title with
  | none =>
    refine ⟨"extracted_document", ?_, ?_⟩
    · simp only [generatePDFFilename, ho]
      decide
    · simp only [generateTextFileFilename, ho]
      decide
  | some t =>
    by_cases ht : t = ""
    · subst ht
      refine ⟨"extracted_document", ?_, ?_⟩
      · simp only [generatePDFFilename, ho]
        decide
      · simp only [generateTextFileFilename, ho]
        decide
    · refine ⟨sanitizeTitle t, ?_, ?_⟩
      · simp only [generatePDFFilename, ho, if_neg ht]
      · simp only [generateTextFileFilename, ho, if_neg ht]

/-- C10: whenever recognition succeeds, the returned confidence is exactly
0.8 — a constant independent of the image and of anything the engine
reports — and the returned text is the engine's generated text with the
empty string substituted when the engine produced none. -/
theorem recognition_success_result (outcome : EngineOutcome) (r : OCRResult)
    (h : extractTextFromImage outcome = Except.ok r) :
    r.confidence = 8/10 ∧
    ∃ g, outcome = EngineOutcome.success g ∧ r.text = g.getD "" := by
  cases outcome with
  | success g =>
    unfold extractTextFromImage at h
    have hr : ({ text := jsOrString g "", confidence := 8/10 } : OCRResult) = r :=
      Except.ok.inj h
    refine ⟨by rw [← hr], g, rfl, ?_⟩
    rw [← hr]
    cases g with
    | none => rfl
    | some s =>
      by_cases hs : s = ""
      · subst hs
        rfl
      · simp [jsOrString, hs]
  | failure =>
    simp [extractTextFromImage] at h

/-- C10 witness: a successful recognition with generated text `"hello"`
returns that text with confidence 0.8. -/
theorem recognition_success_result_witness :
    (extractTextFromImage (EngineOutcome.success (some "hello"))
        = Except.ok { text := "hello", confidence := 8/10 }) ∧
    (({ text := "hello", confidence := 8/10 } : OCRResult).confidence = 8/10 ∧
      ∃ g, EngineOutcome.success (some "hello") = EngineOutcome.success g ∧
        ({ text := "hello", confidence := 8/10 } : OCRResult).text = g.getD "") :=
  ⟨rfl, recognition_success_result (EngineOutcome.success (some "hello"))
    { text := "hello", confidence := 8/10 } rfl⟩

/-- C2: during a run that got past initialization, a targeted file whose
recognition fails ends in `error` with its stored text unchanged (no text
added), its failure is reported by its own toast, every targeted file still
gets its recognition attempt (the run continues past the failure), no
run-level failure is reported, and every file's final record is a function
of its own status and its own oracle answer only — so one file's failure
never aborts the run or changes any other file. -/
theorem per_file_failure_isolated (initOk : Bool)
    (oracle : String → Except Unit String) (s : ConverterState) (f : UploadedFile)
    (hnodup : (s.files.map UploadedFile.id).Nodup)
    (hmem : f ∈ s.files)
    (hpend : f.status = FileStatus.pending)
    (hfail : oracle f.id = Except.error ())
    (hinit : ¬(s.ocrInitialized = false ∧ initOk = false)) :
    outcomeFile oracle f = { f with status := FileStatus.error } ∧
    (outcomeFile oracle f).extractedText = f.extractedText ∧
    (processImages initOk oracle s).files
      = s.files.map (fun g =>
          if g.status = FileStatus.pending then outcomeFile oracle g else g) ∧
    ("Failed to process " ++ f.file.name)
      ∈ (processImages initOk oracle s).errorToasts ∧
    (processImages initOk oracle s).ocrCalls
      = (s.files.filter fun g => g.status == FileStatus.pending).map UploadedFile.id ∧
    (processImages initOk oracle s).runFailureToasts = 0 := by
  have hpf : f ∈ s.files.filter fun g => g.status == FileStatus.pending :=
    List.mem_filter.2 ⟨hmem, by simp [hpend]⟩
  have hpendne : ¬(s.files.filter fun g => g.status == FileStatus.pending).isEmpty := by
    intro hc
    rw [List.isEmpty_iff.mp hc] at hpf
    simp at hpf
  have hout : outcomeFile oracle f = { f with status := FileStatus.error } := by
    unfold outcomeFile
    rw [hfail]
  refine ⟨hout, ?_, processImages_files initOk oracle s hnodup hinit, ?_,
    processImages_calls initOk oracle s hinit hpendne,
    processImages_runFailureToasts_zero initOk oracle s hinit⟩
  · rw [hout]
  · rw [processImages_errs initOk oracle s hinit hpendne]
    exact List.mem_map.2
      ⟨f, List.mem_filter.2 ⟨hpf, by simp [recognitionFailed, hfail]⟩, rfl⟩

/-- C2 witness: in a two-file run where `recA`'s recognition throws and
`recB`'s succeeds, the failure toast for `a.png` is reported. -/
theorem per_file_failure_isolated_witness :
    (([recA, recB].map UploadedFile.id).Nodup ∧
      recA ∈ [recA, recB] ∧
      recA.status = FileStatus.pending ∧
      oracleW recA.id = Except.error () ∧
      ¬(({ files := [recA, recB], ocrInitialized := false } : ConverterState).ocrInitialized
          = false ∧ (true : Bool) = false)) ∧
    ("Failed to process " ++ recA.file.name)
      ∈ (processImages true oracleW
          { files := [recA, recB], ocrInitialized := false }).errorToasts :=
  ⟨⟨by decide, by decide, rfl, rfl, by decide⟩,
    (per_file_failure_isolated true oracleW
      { files := [recA, recB], ocrInitialized := false } recA
      (by decide) (by decide) rfl rfl (by decide)).2.2.2.1⟩

/-- C3: if engine initialization fails at the start of a run over a
non-empty collection, the run aborts: the collection is returned unchanged
(every targeted file is still `pending` with no text stored), no
recognition call is made, no per-file error is reported, the failure is
reported exactly once, and the adapter remains uninitialized. -/
theorem init_failure_aborts (oracle : String → Except Unit String)
    (s : ConverterState) (hne : s.files ≠ []) (hni : s.ocrInitialized = false) :
    (processImages false oracle s).files = s.files ∧
    (processImages false oracle s).ocrCalls = [] ∧
    (processImages false oracle s).errorToasts = [] ∧
    (processImages false oracle s).runFailureToasts = 1 ∧
    (processImages false oracle s).ocrInitialized = false := by
  have hemp : ¬s.files.isEmpty = true := by
    rw [List.isEmpty_iff]
    exact hne
  unfold processImages
  rw [if_neg hemp, if_pos ⟨hni, rfl⟩]
  exact ⟨rfl, rfl, rfl, rfl, hni⟩

/-- C3 witness: a one-file pending collection with failing initialization
is returned unchanged, and exactly one run-level failure is reported. -/
theorem init_failure_aborts_witness :
    (([recA] : List UploadedFile) ≠ [] ∧
      ({ files := [recA], ocrInitialized := false } : ConverterState).ocrInitialized
        = false) ∧
    ((processImages false oracleW { files := [recA], ocrInitialized := false }).files
        = [recA] ∧
      (processImages false oracleW
          { files := [recA], ocrInitialized := false }).runFailureToasts = 1) :=
  ⟨⟨by decide, rfl⟩,
    ⟨(init_failure_aborts oracleW
        { files := [recA], ocrInitialized := false } (by decide) rfl).1,
      (init_failure_aborts oracleW
        { files := [recA], ocrInitialized := false } (by decide) rfl).2.2.2.1⟩⟩

/-- C6: a run over a collection with no `pending` files is a no-op: it
performs no recognition calls and leaves every file's status and extracted
text unchanged — `completed` and `error` files are never re-targeted. -/
theorem no_pending_noop (initOk : Bool) (oracle : String → Except Unit String)
    (s : ConverterState)
    (hnp : ∀ f ∈ s.files, f.status ≠ FileStatus.pending) :
    (processImages initOk oracle s).files = s.files ∧
    (processImages initOk oracle s).ocrCalls = [] := by
  unfold processImages
  by_cases hemp : s.files.isEmpty
  · rw [if_pos hemp]
    exact ⟨rfl, rfl⟩
  · rw [if_neg hemp]
    by_cases hinit : s.ocrInitialized = false ∧ initOk = false
    · rw [if_pos hinit]
      exact ⟨rfl, rfl⟩
    · rw [if_neg hinit]
      have hpe : (s.files.filter fun f => f.status == FileStatus.pending).isEmpty = true := by
        rw [List.isEmpty_iff, List.filter_eq_nil_iff]
        intro a ha
        simp [hnp a ha]
      simp [hpe]

/-- C6 witness: re-running over an already-settled collection (one
completed, one errored file) changes nothing and performs no recognition
call. -/
theorem no_pending_noop_witness :
    (([recDone, recErr].all fun f => !(f.status == FileStatus.pending)) = true ∧
      (processImages true oracleW
          { files := [recDone, recErr], ocrInitialized := true }).files
        = [recDone, recErr] ∧
      (processImages true oracleW
          { files := [recDone, recErr], ocrInitialized := true }).ocrCalls = []) :=
  ⟨by decide,
    (no_pending_noop true oracleW
      { files := [recDone, recErr], ocrInitialized := true } (by decide)).1,
    (no_pending_noop true oracleW
      { files := [recDone, recErr], ocrInitialized := true } (by decide)).2⟩

/-- C7 counterexample: two single-file intake batches arriving within the
same millisecond (`Date.now()` = 1000 for both) produce two distinct queue
records that share the id `"1000-0"` — refuting "ids are distinct across
separate intake batches". -/
theorem cross_batch_id_collision :
    handleFilesAdded
        (handleFilesAdded [] (onDrop (fun _ => 1000) (fun _ => "p") [batchFile1]).1)
        (onDrop (fun _ => 1000) (fun _ => "p") [batchFile2]).1
      = [mkUploadedFile 1000 0 batchFile1 "p", mkUploadedFile 1000 0 batchFile2 "p"] ∧
    mkUploadedFile 1000 0 batchFile1 "p" ≠ mkUploadedFile 1000 0 batchFile2 "p" ∧
    (mkUploadedFile 1000 0 batchFile1 "p").id
      = (mkUploadedFile 1000 0 batchFile2 "p").id := by
  refine ⟨?_, ?_, ?_⟩ <;> decide

/-- C7 (amended): generated ids collide exactly when both the observed
`Date.now()` value and the position index coincide; consequently any two
records at distinct positions of one intake batch have distinct ids, while
ids from different batches can collide only when the batches observe equal
timestamps at equal indices (which does happen — see the counterexample). -/
theorem intake_id_uniqueness :
    (∀ t i t' i' : Nat, encodeId t i = encodeId t' i' ↔ (t = t' ∧ i = i')) ∧
    (∀ (now : Nat → Nat) (rr : JSFile → String) (files : List JSFile)
        (i j : Nat) (r r' : UploadedFile),
      (onDrop now rr files).1.get? i = some r →
      (onDrop now rr files).1.get? j = some r' →
      i ≠ j → r.id ≠ r'.id) := by
  refine ⟨encodeId_inj, ?_⟩
  intro now rr files i j r r' hi hj hij
  simp only [onDrop] at hi hj
  rw [mkRecords_get?] at hi hj
  obtain ⟨f, hf, hrf⟩ := Option.map_eq_some'.mp hi
  obtain ⟨f', hf', hrf'⟩ := Option.map_eq_some'.mp hj
  intro hcontra
  rw [← hrf, ← hrf'] at hcontra
  have hok : encodeId (now (0 + i)) (0 + i) = encodeId (now (0 + j)) (0 + j) :=
    hcontra
  have h2 := ((encodeId_inj (now (0 + i)) (0 + i) (now (0 + j)) (0 + j)).mp hok).2
  omega

/-- C7 witness: within one batch of two files, the records at positions 0
and 1 carry distinct ids. -/
theorem intake_id_uniqueness_witness :
    ((onDrop (fun _ => 7) (fun _ => "p") [batchFile1, batchFile2]).1.get? 0
        = some (mkUploadedFile 7 0 batchFile1 "p") ∧
      (onDrop (fun _ => 7) (fun _ => "p") [batchFile1, batchFile2]).1.get? 1
        = some (mkUploadedFile 7 1 batchFile2 "p") ∧
      (0 : Nat) ≠ 1) ∧
    (mkUploadedFile 7 0 batchFile1 "p").id ≠ (mkUploadedFile 7 1 batchFile2 "p").id :=
  ⟨⟨by decide, by decide, by decide⟩,
    intake_id_uniqueness.2 (fun _ => 7) (fun _ => "p") [batchFile1, batchFile2]
      0 1 _ _ (by decide) (by decide) (by decide)⟩

/-- C8: a candidate is accepted iff its declared media type is an image
type and its size is at most 10 MiB (10 * 1024 * 1024 bytes); the queue
gains exactly one `pending` record (with no extracted text) per accepted
file and no record for any rejected file; exactly one diagnostic is
emitted per rejected file; and accepted + rejected = input count. -/
theorem intake_validation (now : Nat → Nat) (rr : JSFile → String)
    (candidates : List JSFile) :
    (∀ f : JSFile, validateFile f = true ↔
        (strStartsWith f.mimeType "image/" = true ∧ f.size ≤ 10 * 1024 * 1024)) ∧
    (onDrop now rr candidates).1.length = (candidates.filter validateFile).length ∧
    (onDrop now rr candidates).2.length
      = (candidates.filter fun f => !validateFile f).length ∧
    (onDrop now rr candidates).1.length + (onDrop now rr candidates).2.length
      = candidates.length ∧
    (∀ r, r ∈ (onDrop now rr candidates).1 →
      r.status = FileStatus.pending ∧ r.extractedText = none) ∧
    (∀ r, r ∈ (onDrop now rr candidates).1 →
      ∃ f, f ∈ candidates ∧ validateFile f = true ∧ r.file = f) := by
  refine ⟨?_, ?_, ?_, ?_, ?_, ?_⟩
  · intro f
    unfold validateFile
    by_cases h1 : strStartsWith f.mimeType "image/" = false
    · rw [if_pos h1]
      constructor
      · intro hc
        simp at hc
      · rintro ⟨hc, _⟩
        rw [hc] at h1
        simp at h1
    · rw [if_neg h1]
      have h1' : strStartsWith f.mimeType "image/" = true := by
        cases hb : strStartsWith f.mimeType "image/"
        · exact absurd hb h1
        · rfl
      by_cases h2 : 10 * 1024 * 1024 < f.size
      · rw [if_pos h2]
        constructor
        · intro hc
          simp at hc
        · rintro ⟨_, hsz⟩
          omega
      · rw [if_neg h2]
        constructor
        · intro _
          exact ⟨h1', by omega⟩
        · intro _
          rfl
  · simp only [onDrop]
    rw [mkRecords_length]
  · exact intakeDiagnostics_length candidates
  · simp only [onDrop]
    rw [mkRecords_length, intakeDiagnostics_length]
    exact filter_length_split validateFile candidates
  · intro r hr
    simp only [onDrop] at hr
    obtain ⟨i, f, hf, hrf⟩ := mkRecords_mem now rr 0 _ r hr
    rw [hrf]
    exact ⟨rfl, rfl⟩
  · intro r hr
    simp only [onDrop] at hr
    obtain ⟨i, f, hf, hrf⟩ := mkRecords_mem now rr 0 _ r hr
    obtain ⟨hfc, hfv⟩ := List.mem_filter.1 hf
    refine ⟨f, hfc, hfv, ?_⟩
    rw [hrf]
    rfl

/-- C8 witness: for the batch `[imgA, docPdf, imgBig, imgB]` (valid, wrong
type, oversized, valid) the queue gains `imgA`'s record, pending with no
text, and records + diagnostics = 4. -/
theorem intake_validation_witness :
    (mkUploadedFile 3 0 imgA "p"
        ∈ (onDrop (fun _ => 3) (fun _ => "p") [imgA, docPdf, imgBig, imgB]).1) ∧
    ((onDrop (fun _ => 3) (fun _ => "p") [imgA, docPdf, imgBig, imgB]).1.length
        + (onDrop (fun _ => 3) (fun _ => "p") [imgA, docPdf, imgBig, imgB]).2.length
      = 4) ∧
    (mkUploadedFile 3 0 imgA "p").status = FileStatus.pending ∧
    (mkUploadedFile 3 0 imgA "p").extractedText = none :=
  ⟨by decide,
    (intake_validation (fun _ => 3) (fun _ => "p") [imgA, docPdf, imgBig, imgB]).2.2.2.1,
    (intake_validation (fun _ => 3) (fun _ => "p") [imgA, docPdf, imgBig, imgB]).2.2.2.2.1
      (mkUploadedFile 3 0 imgA "p") (by decide)⟩

end ImageDocs
